import Mathlib

/-!
Verification development for the mash2 repository (YouTube audio mashup
pipeline).  The definitions below are shallow embeddings of the Python
functions in `src/app.py`, `src/your_streamlit_app.py` and
`src/102203810.py`; theorems settle the frozen specification claims
against them.

Modelling conventions:
* audio sample values are rationals (the float values are never inspected
  numerically by the code, only sliced and concatenated, so `ℚ` is exact);
* a file that fails to read (`sf.read` raising, caught by the per-file
  `except`) is modelled as `none`;
* Python's `int * int` products are exact, so `int(trim * samplerate)` is
  the plain product on `ℕ`;
* a division by a zero sample rate raises `ZeroDivisionError` in Python;
  inside the per-file loop that exception is caught by the surrounding
  `except` (the file is skipped, the already-assigned samplerate kept),
  at the final duration check it would escape `create_mashup`, which the
  result constructor `MashResult.error` models.
-/

/-- The array returned by `sf.read`: 1-D for mono sources, 2-D
(frames × channels) otherwise. -/
inductive RawAudio where
  | mono (samples : List ℚ)
  | multi (frames : List (List ℚ))
deriving DecidableEq

/-- A successfully decoded audio file: the array plus its sample rate,
as returned by `sf.read` in `create_mashup` (src/app.py line 180). -/
structure ReadFile where
  audio : RawAudio
  rate : ℕ
deriving DecidableEq

/-- Channel fold of `create_mashup` (src/app.py lines 187-188):
`if audio.ndim > 1: audio = np.mean(audio, axis=1)`.  A 1-D array is kept
as is; a 2-D array is averaged across channels frame by frame. -/
def toMono : RawAudio → List ℚ
  | RawAudio.mono s => s
  | RawAudio.multi frames => frames.map (fun fr => fr.sum / (fr.length : ℚ))

/-- Per-file trim of `create_mashup` (src/app.py lines 190-195): if
`len(audio) / samplerate < trim` the whole file is kept, otherwise the
first `int(trim * samplerate)` samples. -/
def keptPart (sr trim : ℕ) (audio : List ℚ) : List ℚ :=
  if ((audio.length : ℚ) / (sr : ℚ)) < (trim : ℚ) then audio
  else audio.take (trim * sr)

/-- The mutable loop state of `create_mashup`: the accumulated buffer
(`mashup`, `None` until a first file is folded in) and the canonical
sample rate (`samplerate`, `None` until a first file is read). -/
structure MashState where
  mashup : Option (List ℚ)
  samplerate : Option ℕ
deriving DecidableEq

/-- One iteration of the `for file in audio_files` loop of
`create_mashup` (src/app.py lines 178-204).  A `none` input is a file on
which `sf.read` raised (the `except` logs and continues).  Otherwise the
canonical samplerate is set from the file if still unset, the audio is
mono-folded, trimmed with `keptPart` and appended.  A zero samplerate
makes the `len(audio) / samplerate` test raise `ZeroDivisionError`,
which the same `except` catches: the buffer is unchanged but the
samplerate assignment (done before the division) persists. -/
def processFile (trim : ℕ) (st : MashState) (f : Option ReadFile) : MashState :=
  match f with
  | none => st
  | some rf =>
    let sr := st.samplerate.getD rf.rate
    if sr = 0 then
      { mashup := st.mashup, samplerate := some sr }
    else
      let part := keptPart sr trim (toMono rf.audio)
      let m := match st.mashup with
        | none => part
        | some buf => buf ++ part
      { mashup := some m, samplerate := some sr }

/-- Outcome of `create_mashup`: a written output (`sf.write` receives the
final buffer and samplerate, the file path is returned), a `None` return,
or an uncaught exception escaping the function. -/
inductive MashResult where
  | ok (samples : List ℚ) (rate : ℕ)
  | failed
  | error
deriving DecidableEq

/-- `create_mashup` of src/app.py lines 171-218.  After the per-file
loop: `return None` when the buffer is `None` or empty (line 206); then
the duration accounting (lines 210-215): with
`expected = trim_duration * len(audio_files)`, leave the buffer as is
when `len(mashup)/samplerate < expected`, else truncate it to
`int(expected * samplerate)` samples; finally write and return. -/
def create_mashup (files : List (Option ReadFile)) (trim : ℕ) : MashResult :=
  let st := files.foldl (processFile trim) { mashup := none, samplerate := none }
  match st.mashup, st.samplerate with
  | none, _ => MashResult.failed
  | some _, none => MashResult.failed
  | some m, some sr =>
    if m.length = 0 then MashResult.failed
    else if sr = 0 then MashResult.error
    else
      let expected : ℕ := trim * files.length
      if ((m.length : ℚ) / (sr : ℚ)) < (expected : ℚ) then MashResult.ok m sr
      else MashResult.ok (m.take (expected * sr)) sr

/-- The rate of the first successfully read file: the value
`create_mashup`'s `samplerate` variable is set to (src/app.py
lines 182-184). -/
def firstRate (files : List (Option ReadFile)) : Option ℕ :=
  ((files.filterMap id).head?).map ReadFile.rate

/-- The concatenation, in list order, of the kept excerpts of the
successfully read files, all trimmed against the canonical rate `sr`. -/
def keptJoin (files : List (Option ReadFile)) (trim sr : ℕ) : List ℚ :=
  ((files.filterMap id).map (fun rf => keptPart sr trim (toMono rf.audio))).flatten

/-! Structure lemmas for the `create_mashup` fold. -/

theorem foldl_processFile_zero (trim : ℕ) :
    ∀ files : List (Option ReadFile),
      files.foldl (processFile trim) { mashup := none, samplerate := some 0 } =
        { mashup := none, samplerate := some 0 } := by
  intro files
  induction files with
  | nil => rfl
  | cons f rest ih =>
    cases f with
    | none => simpa [processFile] using ih
    | some rf => simpa [processFile] using ih

theorem foldl_processFile_some (trim sr : ℕ) (hsr : sr ≠ 0) :
    ∀ (files : List (Option ReadFile)) (buf : List ℚ),
      files.foldl (processFile trim) { mashup := some buf, samplerate := some sr } =
        { mashup := some (buf ++ keptJoin files trim sr), samplerate := some sr } := by
  intro files
  induction files with
  | nil => intro buf; simp [keptJoin]
  | cons f rest ih =>
    intro buf
    cases f with
    | none =>
      simpa [processFile, keptJoin] using ih buf
    | some rf =>
      simp only [List.foldl_cons, processFile, Option.getD, hsr, if_false]
      rw [ih (buf ++ keptPart sr trim (toMono rf.audio))]
      simp [keptJoin, List.append_assoc]

theorem foldl_processFile_init_none (trim : ℕ) (files : List (Option ReadFile))
    (h : firstRate files = none) :
    files.foldl (processFile trim) { mashup := none, samplerate := none } =
      { mashup := none, samplerate := none } := by
  induction files with
  | nil => rfl
  | cons f rest ih =>
    cases f with
    | none =>
      have h' : firstRate rest = none := by
        simpa [firstRate] using h
      simpa [processFile] using ih h'
    | some rf =>
      exfalso
      simp [firstRate] at h

theorem foldl_processFile_init_zero (trim : ℕ) :
    ∀ files : List (Option ReadFile), firstRate files = some 0 →
      files.foldl (processFile trim) { mashup := none, samplerate := none } =
        { mashup := none, samplerate := some 0 } := by
  intro files
  induction files with
  | nil => intro h; simp [firstRate] at h
  | cons f rest ih =>
    intro h
    cases f with
    | none =>
      have h' : firstRate rest = some 0 := by
        simpa [firstRate] using h
      simpa [processFile] using ih h'
    | some rf =>
      have hr : rf.rate = 0 := by
        simpa [firstRate] using h
      simp only [List.foldl_cons, processFile, Option.getD, hr, if_pos]
      exact foldl_processFile_zero trim rest

theorem foldl_processFile_init_some (trim sr : ℕ) (hsr : sr ≠ 0) :
    ∀ files : List (Option ReadFile), firstRate files = some sr →
      files.foldl (processFile trim) { mashup := none, samplerate := none } =
        { mashup := some (keptJoin files trim sr), samplerate := some sr } := by
  intro files
  induction files with
  | nil => intro h; simp [firstRate] at h
  | cons f rest ih =>
    intro h
    cases f with
    | none =>
      have h' : firstRate rest = some sr := by
        simpa [firstRate] using h
      have hk : keptJoin (none :: rest) trim sr = keptJoin rest trim sr := by
        simp [keptJoin]
      rw [hk]
      simpa [processFile] using ih h'
    | some rf =>
      have hr : rf.rate = sr := by
        simpa [firstRate] using h
      simp only [List.foldl_cons, processFile, Option.getD, hr, hsr, if_false]
      rw [foldl_processFile_some trim sr hsr rest (keptPart sr trim (toMono rf.audio))]
      simp [keptJoin]

theorem create_mashup_eq_of_none (files : List (Option ReadFile)) (trim : ℕ)
    (h : firstRate files = none) : create_mashup files trim = MashResult.failed := by
  unfold create_mashup
  rw [foldl_processFile_init_none trim files h]

theorem create_mashup_eq_of_zero (files : List (Option ReadFile)) (trim : ℕ)
    (h : firstRate files = some 0) : create_mashup files trim = MashResult.failed := by
  unfold create_mashup
  rw [foldl_processFile_init_zero trim files h]

theorem create_mashup_eq_of_some (files : List (Option ReadFile)) (trim sr : ℕ)
    (hsr : sr ≠ 0) (h : firstRate files = some sr) :
    create_mashup files trim =
      (if (keptJoin files trim sr).length = 0 then MashResult.failed
       else if (((keptJoin files trim sr).length : ℚ) / (sr : ℚ)) <
           ((trim * files.length : ℕ) : ℚ) then
         MashResult.ok (keptJoin files trim sr) sr
       else MashResult.ok ((keptJoin files trim sr).take (trim * files.length * sr)) sr) := by
  unfold create_mashup
  rw [foldl_processFile_init_some trim sr hsr files h]
  simp only [hsr, if_false]

/-! Elementary facts about `keptPart`. -/

theorem keptPart_eq_take_min (sr trim : ℕ) (hsr : sr ≠ 0) (audio : List ℚ) :
    keptPart sr trim audio = audio.take (min audio.length (trim * sr)) := by
  have hsrQ : (0 : ℚ) < (sr : ℚ) := by
    exact_mod_cast Nat.pos_of_ne_zero hsr
  unfold keptPart
  by_cases hlt : ((audio.length : ℚ) / (sr : ℚ)) < (trim : ℚ)
  · rw [if_pos hlt]
    have hn : audio.length < trim * sr := by
      have := (div_lt_iff₀ hsrQ).mp hlt
      exact_mod_cast this
    rw [min_eq_left (Nat.le_of_lt hn), List.take_length]
  · rw [if_neg hlt]
    have hge : (trim : ℚ) ≤ (audio.length : ℚ) / (sr : ℚ) := le_of_not_lt hlt
    have hn : trim * sr ≤ audio.length := by
      have := (le_div_iff₀ hsrQ).mp hge
      exact_mod_cast this
    rw [min_eq_right hn]

theorem keptPart_length (sr trim : ℕ) (hsr : sr ≠ 0) (audio : List ℚ) :
    (keptPart sr trim audio).length = min audio.length (trim * sr) := by
  rw [keptPart_eq_take_min sr trim hsr audio, List.length_take]
  omega

theorem keptPart_of_nil (sr trim : ℕ) : keptPart sr trim [] = [] := by
  unfold keptPart
  by_cases h : ((([] : List ℚ).length : ℚ) / (sr : ℚ)) < (trim : ℚ) <;>
    simp [h]

/-!
Embedding of `create_mashup` from src/your_streamlit_app.py
(lines 115-153).  pydub's `AudioSegment` is sliced by milliseconds; we
model a segment as its list of per-millisecond slices (the values are
never inspected).  A file on which `AudioSegment.from_file` raises is
`none`; unlike the Flask variant, the `except` here returns `None` for
the whole mashup (line 136).
-/

/-- The `for file in audio_files` loop of the Streamlit `create_mashup`:
trim each segment to `trim * 1000` milliseconds and append; on a failed
load return `None` immediately. -/
def stLoop (trim : ℕ) : List (Option (List ℚ)) → List ℚ → Option (List ℚ)
  | [], acc => some acc
  | none :: _, _ => none
  | some a :: rest, acc => stLoop trim rest (acc ++ a.take (trim * 1000))

/-- The concatenation, in list order, of the per-file trims of the
Streamlit loop. -/
def stJoin (files : List (Option (List ℚ))) (trim : ℕ) : List ℚ :=
  ((files.filterMap id).map (fun a => a.take (trim * 1000))).flatten

/-- `create_mashup` of src/your_streamlit_app.py lines 115-153: start
from an empty segment, append each trimmed file, finally slice the
result to `expected = trim * 1000 * len(audio_files)` milliseconds and
export it.  `none` models the `return None` taken when a file fails to
load; otherwise the exported segment is returned. -/
def create_mashup_streamlit (files : List (Option (List ℚ))) (trim : ℕ) :
    Option (List ℚ) :=
  (stLoop trim files []).map (fun m => m.take (trim * 1000 * files.length))

theorem stLoop_of_mem_none (trim : ℕ) :
    ∀ files : List (Option (List ℚ)), none ∈ files →
      ∀ acc, stLoop trim files acc = none := by
  intro files
  induction files with
  | nil => intro h; exact absurd h (List.not_mem_nil none)
  | cons f rest ih =>
    intro h acc
    cases f with
    | none => rfl
    | some a =>
      have h' : none ∈ rest := by
        rcases List.mem_cons.mp h with h0 | h0
        · exact absurd h0 (by simp)
        · exact h0
      exact ih h' _

theorem stLoop_of_all_some (trim : ℕ) :
    ∀ files : List (Option (List ℚ)), none ∉ files →
      ∀ acc, stLoop trim files acc = some (acc ++ stJoin files trim) := by
  intro files
  induction files with
  | nil => intro _ acc; simp [stLoop, stJoin]
  | cons f rest ih =>
    intro h acc
    cases f with
    | none => exact absurd (List.mem_cons_self none rest) h
    | some a =>
      have h' : none ∉ rest := fun hm => h (List.mem_cons_of_mem _ hm)
      rw [stLoop, ih h' (acc ++ a.take (trim * 1000))]
      simp [stJoin, List.append_assoc]

/-!
Embedding of the fetch side of src/app.py.
-/

/-- `max_attempts` of `download_single_audio` (src/app.py line 87). -/
def max_attempts : ℕ := 5

/-- `base_delay` of `download_single_audio` (src/app.py line 88),
in seconds. -/
def base_delay : ℚ := 5

/-- The backoff delay slept after a failed attempt (src/app.py
line 132): `base_delay * (2 ** attempt) + random.uniform(0, 1)`; the
jitter drawn for each attempt is passed in as a function. -/
def backoffDelay (jitter : ℕ → ℚ) (attempt : ℕ) : ℚ :=
  base_delay * 2 ^ attempt + jitter attempt

/-- The `for attempt in range(max_attempts)` retry loop of
`download_single_audio` (src/app.py lines 90-137), unrolled on the
number of remaining attempts.  `outcome a` is the result of attempt `a`
(`none` = some exception was raised, i.e. a transient failure).  The
value is `(result, number of attempts made, delays slept)`: on success
the loop returns the audio file at once; on failure the backoff delay is
slept and the next attempt runs; when the range is exhausted the
function returns `None`. -/
def retryLoop (outcome : ℕ → Option String) (jitter : ℕ → ℚ) :
    ℕ → ℕ → Option String × ℕ × List ℚ
  | _, 0 => (none, 0, [])
  | a, Nat.succ k =>
    match outcome a with
    | some f => (some f, 1, [])
    | none =>
      let r := retryLoop outcome jitter (a + 1) k
      (r.1, r.2.1 + 1, backoffDelay jitter a :: r.2.2)

/-- `download_single_audio` (src/app.py lines 76-137), as a function of
the per-attempt outcomes and the per-attempt jitter draws. -/
def download_single_audio (outcome : ℕ → Option String) (jitter : ℕ → ℚ) :
    Option String × ℕ × List ℚ :=
  retryLoop outcome jitter 0 max_attempts

/-- The cleanup loop of `download_all_audio` (src/app.py lines 146-151):
`for f in os.listdir(download_path): os.remove(...)`.  The directory is
modelled as the list of names `os.listdir` returns; each listed name is
removed in turn (removal errors are caught and logged in the source; a
removal is modelled as succeeding). -/
def cleanDirectory (dirFiles : List String) : List String :=
  dirFiles.foldl (fun d f => d.erase f) dirFiles

/-- The collection loop of `download_all_audio` (src/app.py
lines 159-166): `for future in as_completed(futures)` yields results in
completion order; a successful download is appended to
`downloaded_files`, a failed one (`None`, or a raised exception) is
skipped.  `completed` lists `(ordinal, result)` pairs in completion
order. -/
def collectDownloads (completed : List (ℕ × Option String)) : List String :=
  completed.foldl
    (fun acc r => match r.2 with
      | some f => acc ++ [f]
      | none => acc) []

/-- `download_all_audio` (src/app.py lines 139-169): clean the download
directory, dispatch all fetches, then collect the settled results.  The
returned pair is (directory contents as seen at dispatch time, the list
of successfully downloaded files in completion order). -/
def download_all_audio (dirFiles : List String)
    (completed : List (ℕ × Option String)) : List String × List String :=
  (cleanDirectory dirFiles, collectDownloads completed)

theorem collectDownloads_eq_filterMap (completed : List (ℕ × Option String)) :
    collectDownloads completed = completed.filterMap Prod.snd := by
  have key : ∀ (l : List (ℕ × Option String)) (acc : List String),
      l.foldl (fun acc r => match r.2 with
        | some f => acc ++ [f]
        | none => acc) acc = acc ++ l.filterMap Prod.snd := by
    intro l
    induction l with
    | nil => intro acc; simp
    | cons p rest ih =>
      intro acc
      rcases p with ⟨i, r⟩
      cases r with
      | none => simpa using ih acc
      | some f => simpa [List.append_assoc] using ih (acc ++ [f])
  simpa [collectDownloads] using key completed []

theorem cleanDirectory_eq_nil (dirFiles : List String) :
    cleanDirectory dirFiles = [] := by
  have key : ∀ l : List String, l.foldl (fun d f => d.erase f) l = [] := by
    intro l
    induction l with
    | nil => rfl
    | cons a t ih =>
      rw [List.foldl_cons, List.erase_cons_head]
      exact ih
  exact key dirFiles

/-!
Embedding of the request surfaces: `is_valid_email` and
`create_mashup_route` of src/app.py, and the argument validation of
`main` in src/102203810.py.
-/

/-- A `\w` character of the pattern (word character). -/
def isWordChar (c : Char) : Bool := c.isAlphanum || c == '_'

/-- A `[\w\.-]` character of the pattern. -/
def isLocalChar (c : Char) : Bool := isWordChar c || c == '.' || c == '-'

/-- The `[\w\.-]+\.\w+$` part of the pattern applied to the domain: all
characters in `[\w.-]`, ending in a dot followed by one or more word
characters, with at least one character before that dot. -/
def domainOk (d : List Char) : Bool :=
  let revd := d.reverse
  let w := revd.takeWhile (fun c => !(c == '.'))
  match revd.dropWhile (fun c => !(c == '.')) with
  | [] => false
  | _ :: pre =>
    decide (w ≠ []) && w.all isWordChar &&
    decide (pre ≠ []) && pre.all isLocalChar

/-- `is_valid_email` of src/app.py lines 48-51 (identical in
src/your_streamlit_app.py lines 38-40): whether
`re.match(r'^[\w\.-]+@[\w\.-]+\.\w+$', email)` succeeds.  Since `@` is in
no character class, the string splits as `local @ domain` with `local`
a nonempty run of `[\w.-]` characters and `domain` matching
`[\w\.-]+\.\w+`. -/
def is_valid_email (email : String) : Bool :=
  let cs := email.toList
  let l := cs.takeWhile (fun c => !(c == '@'))
  match cs.dropWhile (fun c => !(c == '@')) with
  | [] => false
  | _ :: d =>
    decide (l ≠ []) && l.all isLocalChar && domainOk d

/-- The form fields of one POST to `/create_mashup` (src/app.py
lines 342-345).  `request.form.get` yields `none` when a field is
absent; for the numeric fields `some none` models a present value on
which `int()` raises `ValueError` (caught by the route's outer
`except`), `some (some n)` a value parsing to `n`. -/
structure FormData where
  singer : Option String
  numField : Option (Option ℤ)
  trimField : Option (Option ℤ)
  email : Option String
deriving DecidableEq

/-- Outcome of `create_mashup_route`: a structured JSON error response,
or a `success` response after spawning `create_mashup_process` with the
given arguments. -/
inductive RouteResult where
  | errorResp (msg : String)
  | started (num trim : ℤ)
deriving DecidableEq

/-- `create_mashup_route` of src/app.py lines 337-376: parse
`num_videos` (default 10) and `trim_duration` (default 20) with `int()`
(a `ValueError` is caught by the outer `except`, which answers with a
structured error); reject when `singer_name` or `receiver_email` is
missing or empty (`not all([...])`); reject an email failing
`is_valid_email`; otherwise start the background pipeline thread and
answer success.  No minimum is checked on `num_videos` or
`trim_duration`. -/
def create_mashup_route (form : FormData) : RouteResult :=
  match form.numField.getD (some 10) with
  | none => RouteResult.errorResp "An error occurred"
  | some num =>
    match form.trimField.getD (some 20) with
    | none => RouteResult.errorResp "An error occurred"
    | some trim =>
      let singer := form.singer.getD ""
      let email := form.email.getD ""
      if singer = "" || email = "" then
        RouteResult.errorResp "Missing required fields"
      else if !is_valid_email email then
        RouteResult.errorResp "Invalid email address"
      else
        RouteResult.started num trim

/-- The argument checks of `main` in src/102203810.py lines 123-129,
after `int()` parsing succeeded: `num_videos <= 10` and
`trim_duration <= 20` each print an error and `sys.exit(1)` before any
pipeline work; `none` means both checks passed and the pipeline runs. -/
def cliValidate (num_videos trim_duration : ℤ) : Option String :=
  if num_videos ≤ 10 then
    some "Error: Number of videos must be greater than 10."
  else if trim_duration ≤ 20 then
    some "Error: Trim duration must be greater than 20 seconds."
  else
    none

/-! Arithmetic bridge between the rational duration tests and sample
counts. -/

theorem natCast_div_lt_iff (n e sr : ℕ) (hsr : sr ≠ 0) :
    (((n : ℚ) / (sr : ℚ)) < (e : ℚ)) ↔ n < e * sr := by
  have hsrQ : (0 : ℚ) < (sr : ℚ) := by
    exact_mod_cast Nat.pos_of_ne_zero hsr
  rw [div_lt_iff₀ hsrQ]
  constructor
  · intro h; exact_mod_cast h
  · intro h; exact_mod_cast h

theorem keptPart_trim_zero (sr : ℕ) (audio : List ℚ) :
    keptPart sr 0 audio = [] := by
  unfold keptPart
  rw [if_neg, Nat.zero_mul, List.take_zero]
  push_cast
  exact not_lt.mpr (div_nonneg (by positivity) (by positivity))

theorem keptJoin_trim_zero (files : List (Option ReadFile)) (sr : ℕ) :
    keptJoin files 0 sr = [] := by
  unfold keptJoin
  rw [List.flatten_eq_nil_iff]
  intro l hl
  rcases List.mem_map.mp hl with ⟨rf, _, hrf⟩
  rw [← hrf, keptPart_trim_zero]

/-- C1: for every artifact sequence and excerpt duration, a successful
assembly lasts at most `excerptDuration × count(artifacts)`: in the
Flask `create_mashup`, whenever the concatenated buffer reaches the
expected `trim_duration * len(audio_files)` seconds it is cut to exactly
`expected * samplerate` samples, and otherwise it is written as is,
never padded; the Streamlit variant likewise slices the concatenation to
at most `trim * 1000 * len(audio_files)` milliseconds and never pads. -/
theorem mashup_duration_accounting :
    (∀ (files : List (Option ReadFile)) (trim : ℕ) (m : List ℚ) (sr : ℕ),
      create_mashup files trim = MashResult.ok m sr →
        ((m.length : ℚ) / (sr : ℚ) ≤ ((trim * files.length : ℕ) : ℚ)) ∧
        (trim * files.length * sr ≤ (keptJoin files trim sr).length →
            m.length = trim * files.length * sr) ∧
        ((keptJoin files trim sr).length < trim * files.length * sr →
            m = keptJoin files trim sr)) ∧
    (∀ (files : List (Option (List ℚ))) (trim : ℕ) (m : List ℚ),
      create_mashup_streamlit files trim = some m →
        m.length ≤ trim * 1000 * files.length ∧
        (trim * 1000 * files.length ≤ (stJoin files trim).length →
            m.length = trim * 1000 * files.length) ∧
        ((stJoin files trim).length < trim * 1000 * files.length →
            m = stJoin files trim)) := by
  constructor
  · intro files trim m sr h
    rcases hfr : firstRate files with _ | sr'
    · rw [create_mashup_eq_of_none files trim hfr] at h
      exact absurd h (by simp)
    by_cases hz : sr' = 0
    · rw [hz] at hfr
      rw [create_mashup_eq_of_zero files trim hfr] at h
      exact absurd h (by simp)
    rw [create_mashup_eq_of_some files trim sr' hz hfr] at h
    by_cases h0 : (keptJoin files trim sr').length = 0
    · rw [if_pos h0] at h
      exact absurd h (by simp)
    rw [if_neg h0] at h
    by_cases hlt : (((keptJoin files trim sr').length : ℚ) / (sr' : ℚ)) <
        ((trim * files.length : ℕ) : ℚ)
    · rw [if_pos hlt] at h
      simp only [MashResult.ok.injEq] at h
      obtain ⟨hm, hsr2⟩ := h
      rw [← hsr2, ← hm]
      refine ⟨le_of_lt hlt, ?_, fun _ => rfl⟩
      intro hge
      exact absurd ((natCast_div_lt_iff _ _ _ hz).mp hlt) (not_lt.mpr hge)
    · rw [if_neg hlt] at h
      simp only [MashResult.ok.injEq] at h
      obtain ⟨hm, hsr2⟩ := h
      rw [← hsr2]
      have hge : trim * files.length * sr' ≤ (keptJoin files trim sr').length := by
        rw [← not_lt]
        intro hc
        exact hlt ((natCast_div_lt_iff _ _ _ hz).mpr hc)
      have hlen : m.length = trim * files.length * sr' := by
        rw [← hm, List.length_take]
        exact min_eq_left hge
      refine ⟨?_, fun _ => hlen, fun hc => absurd hc (not_lt.mpr hge)⟩
      rw [hlen]
      have hsrQ : ((sr' : ℚ)) ≠ 0 := by
        exact_mod_cast hz
      push_cast
      rw [mul_div_assoc, div_self hsrQ, mul_one]
  · intro files trim m h
    unfold create_mashup_streamlit at h
    by_cases hn : none ∈ files
    · rw [stLoop_of_mem_none trim files hn []] at h
      exact absurd h (by simp)
    · rw [stLoop_of_all_some trim files hn []] at h
      simp only [List.nil_append, Option.map_some', Option.some.injEq] at h
      refine ⟨?_, ?_, ?_⟩
      · rw [← h, List.length_take]
        exact min_le_left _ _
      · intro hE
        rw [← h, List.length_take]
        exact min_eq_left hE
      · intro hlt
        rw [← h]
        exact List.take_of_length_le (le_of_lt hlt)

/-- C1 witness: a one-artifact run at rate 1 with trim 1 is truncated to
exactly 1 sample, and the Streamlit variant keeps a 2 ms file under the
1000 ms budget. -/
theorem mashup_duration_accounting_witness :
    ([(7 : ℚ)] : List ℚ).length = 1 * 1 * 1 ∧
    ([(5 : ℚ), 6] : List ℚ).length ≤ 1 * 1000 * 1 := by
  constructor
  · refine (mashup_duration_accounting.1 [some ⟨RawAudio.mono [7, 8], 1⟩] 1 [7] 1
      (by norm_num [create_mashup, processFile, keptPart, toMono])).2.1 ?_
    have h : keptJoin [some ⟨RawAudio.mono [7, 8], 1⟩] 1 1 = [7] := by
      simp only [keptJoin, List.filterMap_cons, List.filterMap_nil, id_eq,
        List.map_cons, List.map_nil, List.flatten]
      norm_num [keptPart, toMono]
    rw [h]
    norm_num
  · exact (mashup_duration_accounting.2 [some [5, 6]] 1 [5, 6] (by rfl)).1

/-- C2: for each artifact the assembler processes, the kept excerpt is
exactly `min(length, excerptDuration * sampleRate)` samples from the
start of the (mono-folded) artifact — the trim of src/app.py
lines 190-195 applied inside the loop of `create_mashup` — and an
artifact shorter than the excerpt duration is kept whole, never padded
with silence. -/
theorem kept_excerpt_is_min (sr trim : ℕ) (audio : List ℚ) (hsr : 0 < sr) :
    keptPart sr trim audio = audio.take (min audio.length (trim * sr)) ∧
    (keptPart sr trim audio).length = min audio.length (trim * sr) ∧
    (((audio.length : ℚ) / (sr : ℚ)) < (trim : ℚ) → keptPart sr trim audio = audio) := by
  have hsr' : sr ≠ 0 := Nat.pos_iff_ne_zero.mp hsr
  refine ⟨keptPart_eq_take_min sr trim hsr' audio,
    keptPart_length sr trim hsr' audio, fun hshort => ?_⟩
  unfold keptPart
  rw [if_pos hshort]

/-- C2 witness: at rate 2 and trim 1, a 3-sample artifact keeps exactly
`min 3 2 = 2` samples from the start, and at trim 5 a 1-sample artifact
(shorter than the excerpt duration) is kept whole. -/
theorem kept_excerpt_is_min_witness :
    keptPart 2 1 [1, 2, 3] = ([1, 2, 3] : List ℚ).take (min 3 2) ∧
    keptPart 2 5 [9] = [(9 : ℚ)] := by
  constructor
  · exact (kept_excerpt_is_min 2 1 [1, 2, 3] (by norm_num)).1
  · exact (kept_excerpt_is_min 2 5 [9] (by norm_num)).2.2 (by norm_num)

/-- C3 counterexample: the Streamlit assembler, called with an empty
artifact sequence (so zero artifacts contribute any samples), returns a
successful empty artifact — `AudioSegment.silent(duration=0)` sliced to
0 ms is exported and its path returned — not a failure value. -/
theorem streamlit_empty_assembly_succeeds :
    create_mashup_streamlit [] 20 = some [] ∧
    create_mashup_streamlit [] 20 ≠ none := by
  refine ⟨rfl, ?_⟩
  intro h
  simp [create_mashup_streamlit, stLoop] at h

/-- C3 amended: the Flask assembler (src/app.py lines 206-208) returns a
failure value whenever zero artifacts contributed samples — an empty
input sequence, all reads failing, or only empty reads — and never
returns a successful empty buffer; the Streamlit assembler returns a
failure value whenever some artifact fails to load, but an empty
artifact sequence yields a successful empty artifact. -/
theorem zero_contribution_fails :
    (∀ trim : ℕ, create_mashup [] trim = MashResult.failed) ∧
    (∀ (files : List (Option ReadFile)) (trim : ℕ),
        (∀ rf ∈ files.filterMap id, (toMono rf.audio).length = 0) →
          create_mashup files trim = MashResult.failed) ∧
    (∀ (files : List (Option ReadFile)) (trim : ℕ) (m : List ℚ) (sr : ℕ),
        create_mashup files trim = MashResult.ok m sr → 0 < m.length) ∧
    (∀ (files : List (Option (List ℚ))) (trim : ℕ), none ∈ files →
        create_mashup_streamlit files trim = none) := by
  have hjoin_nil : ∀ (files : List (Option ReadFile)) (trim sr : ℕ),
      (∀ rf ∈ files.filterMap id, (toMono rf.audio).length = 0) →
        keptJoin files trim sr = [] := by
    intro files trim sr hall
    unfold keptJoin
    rw [List.flatten_eq_nil_iff]
    intro l hl
    rcases List.mem_map.mp hl with ⟨rf, hrf, hkept⟩
    have hnil : toMono rf.audio = [] := List.length_eq_zero.mp (hall rf hrf)
    rw [← hkept, hnil, keptPart_of_nil]
  refine ⟨?_, ?_, ?_, ?_⟩
  · intro trim
    exact create_mashup_eq_of_none [] trim rfl
  · intro files trim hall
    rcases hfr : firstRate files with _ | sr
    · exact create_mashup_eq_of_none files trim hfr
    by_cases hz : sr = 0
    · rw [hz] at hfr
      exact create_mashup_eq_of_zero files trim hfr
    rw [create_mashup_eq_of_some files trim sr hz hfr,
      hjoin_nil files trim sr hall]
    simp
  · intro files trim m sr h
    rcases hfr : firstRate files with _ | sr'
    · rw [create_mashup_eq_of_none files trim hfr] at h
      exact absurd h (by simp)
    by_cases hz : sr' = 0
    · rw [hz] at hfr
      rw [create_mashup_eq_of_zero files trim hfr] at h
      exact absurd h (by simp)
    rw [create_mashup_eq_of_some files trim sr' hz hfr] at h
    by_cases h0 : (keptJoin files trim sr').length = 0
    · rw [if_pos h0] at h
      exact absurd h (by simp)
    rw [if_neg h0] at h
    have hfne : files ≠ [] := by
      intro hnil
      rw [hnil] at hfr
      exact absurd hfr (by simp [firstRate])
    have htne : trim ≠ 0 := by
      intro ht
      rw [ht, keptJoin_trim_zero] at h0
      exact h0 rfl
    by_cases hlt : (((keptJoin files trim sr').length : ℚ) / (sr' : ℚ)) <
        ((trim * files.length : ℕ) : ℚ)
    · rw [if_pos hlt] at h
      simp only [MashResult.ok.injEq] at h
      rw [← h.1]
      exact Nat.pos_of_ne_zero h0
    · rw [if_neg hlt] at h
      simp only [MashResult.ok.injEq] at h
      have hge : trim * files.length * sr' ≤ (keptJoin files trim sr').length := by
        rw [← not_lt]
        intro hc
        exact hlt ((natCast_div_lt_iff _ _ _ hz).mpr hc)
      rw [← h.1, List.length_take, min_eq_left hge]
      have : 0 < files.length := List.length_pos.mpr hfne
      have : 0 < trim := Nat.pos_of_ne_zero htne
      have : 0 < sr' := Nat.pos_of_ne_zero hz
      positivity
  · intro files trim hmem
    unfold create_mashup_streamlit
    rw [stLoop_of_mem_none trim files hmem []]
    rfl

/-- C3 witness: an input whose only artifact reads as zero frames makes
the Flask assembler fail, and a failed load makes the Streamlit
assembler fail. -/
theorem zero_contribution_fails_witness :
    create_mashup [some ⟨RawAudio.mono [], 3⟩] 2 = MashResult.failed ∧
    create_mashup_streamlit [none] 5 = none := by
  constructor
  · exact zero_contribution_fails.2.1 [some ⟨RawAudio.mono [], 3⟩] 2
      (by simp [toMono])
  · exact zero_contribution_fails.2.2.2 [none] 5 (by simp)

theorem backoffDelay_lt_next (jitter : ℕ → ℚ) (hjlo : ∀ a, 0 ≤ jitter a)
    (hjhi : ∀ a, jitter a ≤ 1) (a : ℕ) :
    backoffDelay jitter a < backoffDelay jitter (a + 1) := by
  unfold backoffDelay base_delay
  have h1 : (1 : ℚ) ≤ 2 ^ a := one_le_pow₀ (by norm_num)
  have h2 := hjlo (a + 1)
  have h3 := hjhi a
  rw [pow_succ]
  nlinarith

/-- C4: when every attempt fails transiently, `download_single_audio`
makes exactly `max_attempts = 5` download attempts before reporting
failure (`None`), and the backoff delays slept
(`base_delay * 2 ** attempt + random.uniform(0, 1)`) are strictly
increasing from each attempt to the next. -/
theorem retry_exhaustion (outcome : ℕ → Option String) (jitter : ℕ → ℚ)
    (hout : ∀ a, outcome a = none)
    (hjlo : ∀ a, 0 ≤ jitter a) (hjhi : ∀ a, jitter a ≤ 1) :
    (download_single_audio outcome jitter).1 = none ∧
    (download_single_audio outcome jitter).2.1 = max_attempts ∧
    (download_single_audio outcome jitter).2.1 = 5 ∧
    List.Chain' (· < ·) (download_single_audio outcome jitter).2.2 := by
  have hrun : download_single_audio outcome jitter =
      (none, 5, [backoffDelay jitter 0, backoffDelay jitter 1, backoffDelay jitter 2,
        backoffDelay jitter 3, backoffDelay jitter 4]) := by
    simp [download_single_audio, max_attempts, retryLoop, hout]
  rw [hrun]
  refine ⟨rfl, rfl, rfl, ?_⟩
  have hstep := backoffDelay_lt_next jitter hjlo hjhi
  exact List.Chain'.cons (hstep 0) (List.Chain'.cons (hstep 1)
    (List.Chain'.cons (hstep 2) (List.Chain'.cons (hstep 3)
      (List.chain'_singleton _))))

/-- C4 witness: with zero jitter and every attempt failing, the loop
makes 5 attempts and the slept delays 5, 10, 20, 40, 80 are strictly
increasing. -/
theorem retry_exhaustion_witness :
    (download_single_audio (fun _ => none) (fun _ => 0)).2.1 = 5 ∧
    List.Chain' (· < ·) (download_single_audio (fun _ => none) (fun _ => 0)).2.2 := by
  constructor
  · exact (retry_exhaustion (fun _ => none) (fun _ => 0) (fun _ => rfl)
      (fun _ => le_refl 0) (fun _ => by norm_num)).2.2.1
  · exact (retry_exhaustion (fun _ => none) (fun _ => 0) (fun _ => rfl)
      (fun _ => le_refl 0) (fun _ => by norm_num)).2.2.2

/-- C5: the fetch coordinator collects every settled result — a failed
reference does not abort its siblings, whose successes are all present —
returns only the successes (at most as many as there are settled
fetches), and an all-failed batch yields the empty list, not an
error. -/
theorem coordinator_partial_failure (dirFiles : List String)
    (completed : List (ℕ × Option String)) :
    (download_all_audio dirFiles completed).2.length ≤ completed.length ∧
    ((∀ r ∈ completed, r.2 = none) →
        (download_all_audio dirFiles completed).2 = []) ∧
    (∀ (i : ℕ) (f : String), (i, some f) ∈ completed →
        f ∈ (download_all_audio dirFiles completed).2) ∧
    (∀ f ∈ (download_all_audio dirFiles completed).2,
        ∃ i, (i, some f) ∈ completed) := by
  have hc : (download_all_audio dirFiles completed).2 =
      completed.filterMap Prod.snd := collectDownloads_eq_filterMap completed
  refine ⟨?_, ?_, ?_, ?_⟩
  · rw [hc]
    exact List.length_filterMap_le Prod.snd completed
  · intro hall
    rw [hc, List.filterMap_eq_nil]
    exact hall
  · intro i f hmem
    rw [hc]
    exact List.mem_filterMap.mpr ⟨(i, some f), hmem, rfl⟩
  · intro f hf
    rw [hc] at hf
    rcases List.mem_filterMap.mp hf with ⟨⟨i, r⟩, hmem, hr⟩
    have hr' : r = some f := hr
    subst hr'
    exact ⟨i, hmem⟩

/-- C5 witness: an all-failed batch of two yields the empty list, and in
a mixed batch the failure of ordinal 1 leaves ordinal 2's success in the
result. -/
theorem coordinator_partial_failure_witness :
    (download_all_audio [] [(1, none), (2, none)]).2 = [] ∧
    "song_2.wav" ∈ (download_all_audio [] [(1, none), (2, some "song_2.wav")]).2 := by
  constructor
  · exact (coordinator_partial_failure [] [(1, none), (2, none)]).2.1
      (by
        intro r hr
        simp only [List.mem_cons, List.not_mem_nil, or_false] at hr
        rcases hr with rfl | rfl <;> rfl)
  · exact (coordinator_partial_failure [] [(1, none), (2, some "song_2.wav")]).2.2.1
      2 "song_2.wav" (by simp)

/-- C6 counterexample: when the download of ordinal 2 completes before
the download of ordinal 1, the coordinator's list is
`[song_2, song_1]` and the assembler — which concatenates in the order
of the list it is handed — puts ordinal 2's excerpt (sample value 2)
before ordinal 1's (sample value 1): the mashup order follows
completion order, not source ordinals. -/
theorem excerpt_order_counterexample :
    (download_all_audio [] [(2, some "song_2.wav"), (1, some "song_1.wav")]).2 =
      ["song_2.wav", "song_1.wav"] ∧
    create_mashup [some ⟨RawAudio.mono [2], 1⟩, some ⟨RawAudio.mono [1], 1⟩] 1 =
      MashResult.ok [2, 1] 1 ∧
    ([2, 1] : List ℚ) ≠ [1, 2] := by
  refine ⟨by decide, ?_, by decide⟩
  norm_num [create_mashup, processFile, keptPart, toMono]

/-- C6 amended: the excerpts appear in the order the downloads complete:
the coordinator appends successful artifacts in completion order, and
the assembler concatenates the kept excerpts exactly in the order of the
artifact list it receives (the successful output is an initial run of
that in-order concatenation). -/
theorem excerpt_order_follows_completion :
    (∀ (dirFiles : List String) (completed : List (ℕ × Option String)),
        (download_all_audio dirFiles completed).2 = completed.filterMap Prod.snd) ∧
    (∀ (files : List (Option ReadFile)) (trim : ℕ) (m : List ℚ) (sr : ℕ),
        create_mashup files trim = MashResult.ok m sr →
          firstRate files = some sr ∧
          ∃ k, m = (keptJoin files trim sr).take k) := by
  constructor
  · intro dirFiles completed
    exact collectDownloads_eq_filterMap completed
  · intro files trim m sr h
    rcases hfr : firstRate files with _ | sr'
    · rw [create_mashup_eq_of_none files trim hfr] at h
      exact absurd h (by simp)
    by_cases hz : sr' = 0
    · rw [hz] at hfr
      rw [create_mashup_eq_of_zero files trim hfr] at h
      exact absurd h (by simp)
    rw [create_mashup_eq_of_some files trim sr' hz hfr] at h
    by_cases h0 : (keptJoin files trim sr').length = 0
    · rw [if_pos h0] at h
      exact absurd h (by simp)
    rw [if_neg h0] at h
    by_cases hlt : (((keptJoin files trim sr').length : ℚ) / (sr' : ℚ)) <
        ((trim * files.length : ℕ) : ℚ)
    · rw [if_pos hlt] at h
      simp only [MashResult.ok.injEq] at h
      obtain ⟨hm, hsr2⟩ := h
      rw [← hsr2]
      exact ⟨rfl, (keptJoin files trim sr').length, by rw [← hm, List.take_length]⟩
    · rw [if_neg hlt] at h
      simp only [MashResult.ok.injEq] at h
      obtain ⟨hm, hsr2⟩ := h
      rw [← hsr2]
      exact ⟨rfl, trim * files.length * sr', hm.symm⟩

/-- C6 amended witness: the coordinator's output for a two-item batch is
its completion-order filter, and a concrete successful assembly is an
initial run of the in-order concatenation of kept excerpts. -/
theorem excerpt_order_follows_completion_witness :
    (download_all_audio [] [(2, some "b.wav"), (1, some "a.wav")]).2 =
      List.filterMap Prod.snd [(2, some "b.wav"), (1, some "a.wav")] ∧
    (firstRate [some ⟨RawAudio.mono [7], 1⟩] = some 1 ∧
      ∃ k, [(7 : ℚ)] = (keptJoin [some ⟨RawAudio.mono [7], 1⟩] 1 1).take k) := by
  constructor
  · exact excerpt_order_follows_completion.1 [] [(2, some "b.wav"), (1, some "a.wav")]
  · exact excerpt_order_follows_completion.2 [some ⟨RawAudio.mono [7], 1⟩] 1 [7] 1
      (by norm_num [create_mashup, processFile, keptPart, toMono])

/-- C7 counterexample: with a first artifact at rate 2 (which becomes
the canonical rate) and a second at rate 4, the assembler keeps the
second artifact's raw samples verbatim, so the output measured at the
canonical rate lasts 5/2 s — strictly more than the 1/2 s + 1 s total
true (trim-capped) duration of the two sources, which could not happen
had the differing artifact been resampled to the canonical rate. -/
theorem no_resampling_counterexample :
    create_mashup [some ⟨RawAudio.mono [5], 2⟩, some ⟨RawAudio.mono [1, 2, 3, 4], 4⟩] 3 =
      MashResult.ok [5, 1, 2, 3, 4] 2 ∧
    keptPart 2 3 (toMono (RawAudio.mono [1, 2, 3, 4])) = [1, 2, 3, 4] ∧
    ¬ ((([(5 : ℚ), 1, 2, 3, 4].length : ℚ) / 2) ≤
        min ((1 : ℚ) / 2) 3 + min ((4 : ℚ) / 4) 3) := by
  refine ⟨?_, ?_, ?_⟩
  · norm_num [create_mashup, processFile, keptPart, toMono]
  · norm_num [keptPart, toMono]
  · norm_num [min_def]

/-- C7 amended: the assembler does pick a canonical sample rate — the
rate of the first successfully loaded artifact — but performs no
resampling: once the canonical rate is set, processing an artifact
ignores the artifact's own sample rate entirely, and every kept excerpt
is an untransformed initial segment of the artifact's mono-folded raw
samples, with the trim threshold computed against the canonical rate. -/
theorem canonical_rate_without_resampling :
    (∀ (files : List (Option ReadFile)) (trim : ℕ) (m : List ℚ) (sr : ℕ),
        create_mashup files trim = MashResult.ok m sr → firstRate files = some sr) ∧
    (∀ (trim : ℕ) (buf : Option (List ℚ)) (sr : ℕ) (rf rf' : ReadFile),
        rf.audio = rf'.audio →
          processFile trim { mashup := buf, samplerate := some sr } (some rf) =
            processFile trim { mashup := buf, samplerate := some sr } (some rf')) ∧
    (∀ (sr trim : ℕ) (audio : List ℚ), sr ≠ 0 →
        ∃ k, keptPart sr trim audio = audio.take k) := by
  refine ⟨?_, ?_, ?_⟩
  · intro files trim m sr h
    rcases hfr : firstRate files with _ | sr'
    · rw [create_mashup_eq_of_none files trim hfr] at h
      exact absurd h (by simp)
    by_cases hz : sr' = 0
    · rw [hz] at hfr
      rw [create_mashup_eq_of_zero files trim hfr] at h
      exact absurd h (by simp)
    rw [create_mashup_eq_of_some files trim sr' hz hfr] at h
    by_cases h0 : (keptJoin files trim sr').length = 0
    · rw [if_pos h0] at h
      exact absurd h (by simp)
    rw [if_neg h0] at h
    by_cases hlt : (((keptJoin files trim sr').length : ℚ) / (sr' : ℚ)) <
        ((trim * files.length : ℕ) : ℚ)
    · rw [if_pos hlt] at h
      simp only [MashResult.ok.injEq] at h
      rw [h.2]
    · rw [if_neg hlt] at h
      simp only [MashResult.ok.injEq] at h
      rw [h.2]
  · intro trim buf sr rf rf' haudio
    simp [processFile, haudio]
  · intro sr trim audio hsr
    exact ⟨min audio.length (trim * sr), keptPart_eq_take_min sr trim hsr audio⟩

/-- C7 amended witness: a rate-2 first artifact fixes the canonical rate
at 2; two artifacts with equal samples but rates 4 and 8 are processed
identically; and the kept excerpt at rate 2, trim 1 of a 3-sample
artifact is an initial segment of its raw samples. -/
theorem canonical_rate_without_resampling_witness :
    firstRate [some ⟨RawAudio.mono [5], 2⟩, some ⟨RawAudio.mono [1, 2, 3, 4], 4⟩] =
      some 2 ∧
    processFile 1 { mashup := none, samplerate := some 2 } (some ⟨RawAudio.mono [9], 4⟩) =
      processFile 1 { mashup := none, samplerate := some 2 } (some ⟨RawAudio.mono [9], 8⟩) ∧
    ∃ k, keptPart 2 1 [1, 2, 3] = ([1, 2, 3] : List ℚ).take k := by
  refine ⟨?_, ?_, ?_⟩
  · exact canonical_rate_without_resampling.1
      [some ⟨RawAudio.mono [5], 2⟩, some ⟨RawAudio.mono [1, 2, 3, 4], 4⟩] 3
      [5, 1, 2, 3, 4] 2 (by norm_num [create_mashup, processFile, keptPart, toMono])
  · exact canonical_rate_without_resampling.2.1 1 none 2 ⟨RawAudio.mono [9], 4⟩
      ⟨RawAudio.mono [9], 8⟩ rfl
  · exact canonical_rate_without_resampling.2.2 2 1 [1, 2, 3] (by norm_num)

/-- C8 counterexample: the Flask request surface accepts a POST whose
desired source count is 5 — not greater than the claimed minimum of
10 — and starts the pipeline with it instead of answering a structured
error; the count and trim minimum checks exist only in the CLI
variant. -/
theorem route_missing_minimum_checks :
    create_mashup_route
        { singer := some "adele", numField := some (some 5),
          trimField := some (some 30), email := some "a@b.com" } =
      RouteResult.started 5 30 ∧
    (∀ msg, RouteResult.started 5 30 ≠ RouteResult.errorResp msg) := by
  refine ⟨by decide, ?_⟩
  intro msg h
  exact RouteResult.noConfusion h

/-- C8 amended: the Flask route answers a structured error — never a
crash — for a missing or empty singer or email, for an email failing
the pattern, and for a numeric field on which `int()` raises; it starts
the pipeline only when a present email passes `is_valid_email`, but it
enforces no minimum on source count or trim duration.  The count > 10
and trim > 20 minimums are enforced only by the CLI variant, which
reports a structured error (and runs no pipeline) whenever either is
violated. -/
theorem request_surface_validation :
    (∀ (form : FormData) (n t : ℤ),
        create_mashup_route form = RouteResult.started n t →
          ∃ e, form.email = some e ∧ is_valid_email e = true) ∧
    (∀ (form : FormData) (e : String), form.email = some e →
        is_valid_email e = false →
          ∃ msg, create_mashup_route form = RouteResult.errorResp msg) ∧
    (∀ form : FormData, form.numField = some none →
        create_mashup_route form = RouteResult.errorResp "An error occurred") ∧
    (∀ n t : ℤ, n ≤ 10 → ∃ msg, cliValidate n t = some msg) ∧
    (∀ n t : ℤ, 10 < n → t ≤ 20 → ∃ msg, cliValidate n t = some msg) ∧
    (∀ n t : ℤ, cliValidate n t = none → 10 < n ∧ 20 < t) := by
  refine ⟨?_, ?_, ?_, ?_, ?_, ?_⟩
  · intro form n t h
    unfold create_mashup_route at h
    split at h
    · exact absurd h (by simp)
    split at h
    · exact absurd h (by simp)
    dsimp only at h
    split at h
    · exact absurd h (by simp)
    split at h
    · exact absurd h (by simp)
    next hval =>
    next hmiss =>
    have hval' : is_valid_email (form.email.getD "") = true := by
      simpa using hval
    rcases hem : form.email with _ | e
    · exfalso
      rw [hem] at hmiss
      simp at hmiss
    · refine ⟨e, rfl, ?_⟩
      rw [hem] at hval'
      simpa using hval'
  · intro form e hem hbad
    unfold create_mashup_route
    split
    · exact ⟨"An error occurred", rfl⟩
    split
    · exact ⟨"An error occurred", rfl⟩
    dsimp only
    by_cases hmiss : (form.singer.getD "" = "" || form.email.getD "" = "" : Bool)
    · rw [if_pos hmiss]
      exact ⟨"Missing required fields", rfl⟩
    rw [if_neg hmiss]
    have hcond : (!is_valid_email (form.email.getD "")) = true := by
      rw [hem]
      simpa using hbad
    rw [if_pos hcond]
    exact ⟨"Invalid email address", rfl⟩
  · intro form h
    unfold create_mashup_route
    rw [h]
    rfl
  · intro n t h
    exact ⟨"Error: Number of videos must be greater than 10.", by
      unfold cliValidate
      rw [if_pos h]⟩
  · intro n t hn ht
    refine ⟨"Error: Trim duration must be greater than 20 seconds.", ?_⟩
    unfold cliValidate
    rw [if_neg (not_le.mpr hn), if_pos ht]
  · intro n t h
    unfold cliValidate at h
    by_cases hn : n ≤ 10
    · rw [if_pos hn] at h
      exact absurd h (by simp)
    rw [if_neg hn] at h
    by_cases ht : t ≤ 20
    · rw [if_pos ht] at h
      exact absurd h (by simp)
    · exact ⟨not_le.mp hn, not_le.mp ht⟩

/-- C8 amended witness: a valid request carries a validated email, an
invalid email is answered with a structured error, and the CLI rejects a
source count of 5 with a structured error message. -/
theorem request_surface_validation_witness :
    (∃ e, (some "a@b.com" : Option String) = some e ∧ is_valid_email e = true) ∧
    (∃ msg, create_mashup_route
        { singer := some "adele", numField := some (some 11),
          trimField := some (some 25), email := some "not-an-email" } =
      RouteResult.errorResp msg) ∧
    (∃ msg, cliValidate 5 30 = some msg) := by
  refine ⟨?_, ?_, ?_⟩
  · exact request_surface_validation.1
      ⟨some "adele", some (some 11), some (some 25), some "a@b.com"⟩ 11 25 (by decide)
  · exact request_surface_validation.2.1
      ⟨some "adele", some (some 11), some (some 25), some "not-an-email"⟩
      "not-an-email" rfl (by decide)
  · exact request_surface_validation.2.2.2.1 5 30 (by norm_num)

/-- C9: the divisions by the canonical sample rate in `create_mashup`
are reached only after a successful read has set it: the loop state
carries `samplerate = None` exactly until the first successful read, a
non-`None` buffer implies the samplerate is set and nonzero, the
function can never end in an uncaught `ZeroDivisionError`, and a
successful result's rate is the first successfully read artifact's
rate, a positive integer. -/
theorem samplerate_set_before_division :
    (∀ (files : List (Option ReadFile)) (trim : ℕ),
        (files.foldl (processFile trim)
            { mashup := none, samplerate := none }).samplerate =
          firstRate files) ∧
    (∀ (files : List (Option ReadFile)) (trim : ℕ),
        ((files.foldl (processFile trim)
            { mashup := none, samplerate := none }).mashup).isSome →
          ∃ sr, firstRate files = some sr ∧ 0 < sr) ∧
    (∀ (files : List (Option ReadFile)) (trim : ℕ),
        create_mashup files trim ≠ MashResult.error) ∧
    (∀ (files : List (Option ReadFile)) (trim : ℕ) (m : List ℚ) (sr : ℕ),
        create_mashup files trim = MashResult.ok m sr →
          firstRate files = some sr ∧ 0 < sr) := by
  have hstate : ∀ (files : List (Option ReadFile)) (trim : ℕ),
      files.foldl (processFile trim) { mashup := none, samplerate := none } =
        (match firstRate files with
          | none => { mashup := none, samplerate := none }
          | some 0 => { mashup := none, samplerate := some 0 }
          | some sr =>
              { mashup := some (keptJoin files trim sr), samplerate := some sr }) := by
    intro files trim
    rcases hfr : firstRate files with _ | sr
    · exact foldl_processFile_init_none trim files hfr
    rcases Nat.eq_zero_or_pos sr with hz | hpos
    · rw [hz] at hfr ⊢
      exact foldl_processFile_init_zero trim files hfr
    · have hz : sr ≠ 0 := Nat.pos_iff_ne_zero.mp hpos
      rw [foldl_processFile_init_some trim sr hz files hfr]
      match sr, hz with
      | Nat.succ k, _ => rfl
  refine ⟨?_, ?_, ?_, ?_⟩
  · intro files trim
    rw [hstate files trim]
    rcases firstRate files with _ | sr
    · rfl
    · match sr with
      | 0 => rfl
      | Nat.succ k => rfl
  · intro files trim hsome
    rw [hstate files trim] at hsome
    rcases hfr : firstRate files with _ | sr
    · rw [hfr] at hsome
      exact absurd hsome (by simp)
    match sr with
    | 0 =>
      rw [hfr] at hsome
      exact absurd hsome (by simp)
    | Nat.succ k =>
      exact ⟨Nat.succ k, rfl, Nat.succ_pos k⟩
  · intro files trim h
    rcases hfr : firstRate files with _ | sr
    · rw [create_mashup_eq_of_none files trim hfr] at h
      exact absurd h (by simp)
    by_cases hz : sr = 0
    · rw [hz] at hfr
      rw [create_mashup_eq_of_zero files trim hfr] at h
      exact absurd h (by simp)
    rw [create_mashup_eq_of_some files trim sr hz hfr] at h
    by_cases h0 : (keptJoin files trim sr).length = 0
    · rw [if_pos h0] at h
      exact absurd h (by simp)
    rw [if_neg h0] at h
    by_cases hlt : (((keptJoin files trim sr).length : ℚ) / (sr : ℚ)) <
        ((trim * files.length : ℕ) : ℚ)
    · rw [if_pos hlt] at h
      exact absurd h (by simp)
    · rw [if_neg hlt] at h
      exact absurd h (by simp)
  · intro files trim m sr h
    rcases hfr : firstRate files with _ | sr'
    · rw [create_mashup_eq_of_none files trim hfr] at h
      exact absurd h (by simp)
    by_cases hz : sr' = 0
    · rw [hz] at hfr
      rw [create_mashup_eq_of_zero files trim hfr] at h
      exact absurd h (by simp)
    rw [create_mashup_eq_of_some files trim sr' hz hfr] at h
    by_cases h0 : (keptJoin files trim sr').length = 0
    · rw [if_pos h0] at h
      exact absurd h (by simp)
    rw [if_neg h0] at h
    by_cases hlt : (((keptJoin files trim sr').length : ℚ) / (sr' : ℚ)) <
        ((trim * files.length : ℕ) : ℚ)
    · rw [if_pos hlt] at h
      simp only [MashResult.ok.injEq] at h
      rw [← h.2]
      exact ⟨rfl, Nat.pos_of_ne_zero hz⟩
    · rw [if_neg hlt] at h
      simp only [MashResult.ok.injEq] at h
      rw [← h.2]
      exact ⟨rfl, Nat.pos_of_ne_zero hz⟩

/-- C9 witness: on a concrete two-file input whose first read fails, the
loop state's samplerate is the second file's rate, the buffer being set
implies a positive canonical rate, and the successful result carries the
first successfully read file's rate 4 > 0. -/
theorem samplerate_set_before_division_witness :
    ([none, some ⟨RawAudio.mono [1, 2, 3, 4, 5], 4⟩].foldl (processFile 1)
        { mashup := none, samplerate := none }).samplerate =
      firstRate [none, some ⟨RawAudio.mono [1, 2, 3, 4, 5], 4⟩] ∧
    (∃ sr, firstRate [none, some ⟨RawAudio.mono [1, 2, 3, 4, 5], 4⟩] = some sr ∧
      0 < sr) ∧
    (firstRate [none, some ⟨RawAudio.mono [1, 2, 3, 4, 5], 4⟩] = some 4 ∧ 0 < 4) := by
  refine ⟨?_, ?_, ?_⟩
  · exact samplerate_set_before_division.1 [none, some ⟨RawAudio.mono [1, 2, 3, 4, 5], 4⟩] 1
  · exact samplerate_set_before_division.2.1 [none, some ⟨RawAudio.mono [1, 2, 3, 4, 5], 4⟩] 1
      (by norm_num [processFile, keptPart, toMono])
  · exact samplerate_set_before_division.2.2.2 [none, some ⟨RawAudio.mono [1, 2, 3, 4, 5], 4⟩]
      1 [1, 2, 3, 4] 4 (by norm_num [create_mashup, processFile, keptPart, toMono])

/-- C10: before dispatching any download, `download_all_audio` removes
every file listed in the download directory: the directory as seen at
dispatch time is empty, so a caller that passes a directory holding
unrelated files loses them. -/
theorem directory_cleaned_before_dispatch :
    (∀ (dirFiles : List String) (completed : List (ℕ × Option String)),
        (download_all_audio dirFiles completed).1 = []) ∧
    (∀ (dirFiles : List String) (completed : List (ℕ × Option String)) (f : String),
        f ∈ dirFiles → f ∉ (download_all_audio dirFiles completed).1) := by
  constructor
  · intro dirFiles completed
    exact cleanDirectory_eq_nil dirFiles
  · intro dirFiles completed f _
    rw [show (download_all_audio dirFiles completed).1 = [] from
      cleanDirectory_eq_nil dirFiles]
    exact List.not_mem_nil f

/-- C10 witness: an unrelated file present before the call is gone from
the directory the dispatched downloads see. -/
theorem directory_cleaned_before_dispatch_witness :
    "unrelated.txt" ∉ (download_all_audio ["unrelated.txt", "song_1.wav"] []).1 := by
  exact directory_cleaned_before_dispatch.2 ["unrelated.txt", "song_1.wav"] []
    "unrelated.txt" (by simp)
